import Mathlib

/-!
# Verification of the e-commerce ETL transform stage

A shallow embedding of `src/transform.py` (the transform core of the
`ecommerce-data-pipeline-etl` repository) and proofs about it.

Modelling conventions:
* A pandas `DataFrame` of a given dataset is a `List` of typed row structures;
  row order is the input row order (pandas index order).
* Nullable string columns are `Option String` (`none` = `NaN`/`pd.NA`).
* `datetime64` values are epoch timestamps in seconds (`Int`); a missing or
  unparsable date (`NaT`) is `none`.  `pd.to_datetime(..., errors='coerce')`
  is modelled by an abstract parse function `String → Option Int`.
* `float64` money/score columns are `ℚ` (exact arithmetic stands in for
  IEEE doubles; every claim proved about them is structural).
* `groupby` keeps groups of rows sharing a key and drops rows whose key is
  null (pandas `dropna=True`).  Group order here is first-occurrence order
  while pandas sorts keys; no claim observes the row order of an aggregated
  table, and every later use of an aggregate is a key lookup.
* `merge(..., how='left')` produces, for each left row, one output row per
  matching right row, or a single row with nulls when nothing matches.
-/

/-- Seconds per day: `Timedelta.days` is floor division of the difference by
this constant. -/
def secondsPerDay : Int := 86400

/-- `Series.fillna('unknown')` on one nullable string cell. -/
def fillUnknown (s : Option String) : Option String :=
  some (s.getD "unknown")

/-- Distinct values of a list in first-occurrence order (the key set of a
pandas `groupby`, and `Series.unique`). -/
def dedupFirst {α : Type} [DecidableEq α] : List α → List α
  | [] => []
  | x :: xs => x :: dedupFirst (xs.filter fun y => y ≠ x)
termination_by l => l.length
decreasing_by
  simp only [List.length_cons]
  exact Nat.lt_succ_of_le (List.length_filter_le _ _)

/-- `df.groupby(key)`: one `(key, group)` pair per distinct non-null key, the
group being the rows carrying that key, in input order. -/
def groupByKey {α : Type} (key : α → Option String) (rows : List α) :
    List (String × List α) :=
  (dedupFirst (rows.filterMap key)).map fun k =>
    (k, rows.filter fun r => key r = some k)

/-- `left.merge(right, on=key, how='left')`: each left row paired with every
matching right row, or with `none` when no right row matches.  Like pandas,
a null key matches a null key. -/
def leftMergeRows {α β : Type} (lk : α → Option String) (rk : β → Option String)
    (ls : List α) (rs : List β) : List (α × Option β) :=
  ls.flatMap fun l =>
    match rs.filter (fun r => rk r = lk l) with
    | [] => [(l, none)]
    | m :: ms => (m :: ms).map fun r => (l, some r)

/-- First value stored under a key in an association list (all association
lists built below have pairwise distinct keys). -/
def findValue {γ : Type} (t : List (String × γ)) (k : String) : Option γ :=
  (t.find? fun p => p.1 = k).map fun p => p.2

/-- Python string comparison: lexicographic on code points.  (Stated on
`String.data` because it is this order that `Series.mode` sorts by.) -/
def strLe (a b : String) : Prop := a.data ≤ b.data

instance : DecidableRel strLe := fun a b => by
  unfold strLe; infer_instance

instance : IsTrans String strLe :=
  ⟨fun _ _ _ h h' => le_trans (α := List Char) h h'⟩

instance : IsTotal String strLe :=
  ⟨fun a b => le_total (α := List Char) a.data b.data⟩

/-- `Series.mode()` over non-null string values: all values of maximal
frequency, sorted ascending. -/
def seriesMode (xs : List String) : List String :=
  let u := dedupFirst xs
  let mc := (u.map fun v => xs.count v).foldr max 0
  List.insertionSort strLe (u.filter fun v => xs.count v = mc)

/-- The lambda `x.mode().iloc[0] if len(x.mode()) > 0 else x.iloc[0] if
len(x) > 0 else None` used for main product / main seller attribution
(`mode` drops nulls). -/
def modeAgg (xs : List (Option String)) : Option String :=
  match (seriesMode (xs.filterMap id)).head? with
  | some m => some m
  | none =>
    match xs.head? with
    | some v => v
    | none => none

/-- The lambda `x.mode().iloc[0] if len(x.mode()) > 0 else 'unknown'` used for
the main product category. -/
def modeCat (xs : List String) : String :=
  ((seriesMode xs).head?).getD "unknown"

/-! ## Row types (post-extract schemas, trimmed to the columns the transform
stage reads or writes; untouched payload columns are omitted). -/

/-- `orders` row as extracted: every column is string-typed (`apply_dtypes`
types all eight columns `'string'`; dates are parsed only later, by
`convert_dates`). -/
structure OrderRowS where
  order_id : Option String
  customer_id : Option String
  order_status : Option String
  order_purchase_timestamp : Option String
  order_approved_at : Option String
  order_delivered_carrier_date : Option String
  order_delivered_customer_date : Option String
  order_estimated_delivery_date : Option String
deriving DecidableEq, Repr

/-- `orders` row after date conversion; `delivery_time_days` and
`delivery_delay_days` are the columns added by `calculate_delivery_metrics`
(`none` while the column is absent, and `pd.NA` afterwards). -/
structure OrderRow where
  order_id : Option String
  customer_id : Option String
  order_status : Option String
  order_purchase_timestamp : Option Int
  order_approved_at : Option Int
  order_delivered_carrier_date : Option Int
  order_delivered_customer_date : Option Int
  order_estimated_delivery_date : Option Int
  delivery_time_days : Option Int := none
  delivery_delay_days : Option Int := none
deriving DecidableEq, Repr

/-- `order_items` row as extracted (`shipping_limit_date` still a string). -/
structure ItemRowS where
  order_id : Option String
  order_item_id : Int
  product_id : Option String
  seller_id : Option String
  shipping_limit_date : Option String
  price : ℚ
  freight_value : ℚ
deriving DecidableEq, Repr

/-- `order_items` row after date conversion. -/
structure ItemRow where
  order_id : Option String
  order_item_id : Int
  product_id : Option String
  seller_id : Option String
  shipping_limit_date : Option Int
  price : ℚ
  freight_value : ℚ
deriving DecidableEq, Repr

/-- `order_payments` row. -/
structure PaymentRow where
  order_id : Option String
  payment_type : Option String
  payment_installments : Int
  payment_value : ℚ
deriving DecidableEq, Repr

/-- `order_reviews` row as extracted (`review_creation_date` still a
string). -/
structure ReviewRowS where
  review_id : Option String
  order_id : Option String
  review_score : ℚ
  review_comment_title : Option String
  review_comment_message : Option String
  review_creation_date : Option String
deriving DecidableEq, Repr

/-- `order_reviews` row after date conversion.  The comment message stays
nullable: the fact builder tests it with `notna`. -/
structure ReviewRow where
  review_id : Option String
  order_id : Option String
  review_score : ℚ
  review_comment_title : Option String
  review_comment_message : Option String
  review_creation_date : Option Int
deriving DecidableEq, Repr

/-- `customers` row; `total_orders` / `is_recurring_customer` are the columns
added by `identify_recurring_customers` (`none` while absent). -/
structure CustomerRow where
  customer_id : Option String
  customer_unique_id : Option String
  customer_city : Option String
  customer_state : Option String
  total_orders : Option Nat := none
  is_recurring_customer : Option Bool := none
deriving DecidableEq, Repr

/-- `products` row; `product_category_name_english` is meaningful only when
the enclosing table records that the column exists. -/
structure ProductRow where
  product_id : Option String
  product_category_name : Option String
  product_category_name_english : Option String := none
deriving DecidableEq, Repr

/-- The `products` dataframe.  `hasEnglishCol` records whether the
`product_category_name_english` column exists: selecting it when absent is a
`KeyError` in pandas, which the fact builder can hit. -/
structure ProductsTable where
  rows : List ProductRow
  hasEnglishCol : Bool
deriving DecidableEq, Repr

/-- `sellers` row (the fact builder receives the table but never reads it). -/
structure SellerRow where
  seller_id : Option String
deriving DecidableEq, Repr

/-- `category_translation` row. -/
structure TranslationRow where
  product_category_name : Option String
  product_category_name_english : Option String
deriving DecidableEq, Repr

/-- `geolocation` row; `is_valid_coordinate` is added by
`validate_geolocation`. -/
structure GeoRow where
  geolocation_city : Option String
  geolocation_state : Option String
  geolocation_lat : ℚ
  geolocation_lng : ℚ
  is_valid_coordinate : Option Bool := none
deriving DecidableEq, Repr

/-- One row of the derived `order_metrics` table. -/
structure OrderMetricsRow where
  order_id : String
  order_items_total_price : ℚ
  order_items_total_freight : ℚ
  order_items_count : Nat
  order_max_item_id : Option Int
  order_total_value : ℚ
deriving DecidableEq, Repr

/-- One row of the derived `fact_orders` table (merge-missing aggregates are
`none`). -/
structure FactRow where
  order_id : Option String
  customer_id : Option String
  order_status : Option String
  order_purchase_timestamp : Option Int
  order_delivered_customer_date : Option Int
  order_estimated_delivery_date : Option Int
  delivery_time_days : Option Int
  delivery_delay_days : Option Int
  order_items_total_price : Option ℚ
  order_items_total_freight : Option ℚ
  order_items_count : Option Nat
  order_max_item_id : Option Int
  order_total_value : Option ℚ
  total_payment_value : Option ℚ
  payment_types : Option String
  max_installments : Option Int
  avg_review_score : Option ℚ
  has_review_comment : Option Bool
  customer_unique_id : Option String
  customer_state : Option String
  customer_city : Option String
  main_product_id : Option String
  main_product_category : Option String
  main_seller_id : Option String
  unique_sellers_count : Option Nat
deriving DecidableEq, Repr

/-! ## Schema normalization (`handle_missing_values`)

`standardize_columns` only lower-cases and trims column names; in this typed
embedding column names are fixed, so it is the identity and not modelled
separately.

`handle_missing_values` applies a dataset-specific fill and then fills every
remaining null of every string-typed column with `'unknown'`.  At this point
all date columns are still string-typed (extraction types them `'string'`),
so the generic fill reaches them too. -/

/-- `handle_missing_values(df, 'orders')`: the `orders` branch is `pass`, and
the generic string fill then replaces nulls of all eight string columns —
including the delivery date columns — with `'unknown'`. -/
def handle_missing_values_orders (r : OrderRowS) : OrderRowS where
  order_id := fillUnknown r.order_id
  customer_id := fillUnknown r.customer_id
  order_status := fillUnknown r.order_status
  order_purchase_timestamp := fillUnknown r.order_purchase_timestamp
  order_approved_at := fillUnknown r.order_approved_at
  order_delivered_carrier_date := fillUnknown r.order_delivered_carrier_date
  order_delivered_customer_date := fillUnknown r.order_delivered_customer_date
  order_estimated_delivery_date := fillUnknown r.order_estimated_delivery_date

/-- `handle_missing_values(df, 'order_items')`: generic string fill only. -/
def handle_missing_values_order_items (r : ItemRowS) : ItemRowS :=
  { r with
    order_id := fillUnknown r.order_id
    product_id := fillUnknown r.product_id
    seller_id := fillUnknown r.seller_id
    shipping_limit_date := fillUnknown r.shipping_limit_date }

/-- `handle_missing_values(df, 'order_payments')`: generic string fill only
(numeric columns are never imputed). -/
def handle_missing_values_order_payments (r : PaymentRow) : PaymentRow :=
  { r with
    order_id := fillUnknown r.order_id
    payment_type := fillUnknown r.payment_type }

/-- `handle_missing_values(df, 'order_reviews')`: comment title/message are
filled with `''` first; the generic fill then handles the remaining string
columns. -/
def handle_missing_values_order_reviews (r : ReviewRowS) : ReviewRowS :=
  { r with
    review_id := fillUnknown r.review_id
    order_id := fillUnknown r.order_id
    review_comment_title := some (r.review_comment_title.getD "")
    review_comment_message := some (r.review_comment_message.getD "")
    review_creation_date := fillUnknown r.review_creation_date }

/-- `handle_missing_values(df, 'customers')`: generic string fill only. -/
def handle_missing_values_customers (r : CustomerRow) : CustomerRow :=
  { r with
    customer_id := fillUnknown r.customer_id
    customer_unique_id := fillUnknown r.customer_unique_id
    customer_city := fillUnknown r.customer_city
    customer_state := fillUnknown r.customer_state }

/-- `handle_missing_values(df, 'products')`: the branch fills the category
with `'unknown'`, which the generic fill extends to the other string columns
(the english column participates only when it exists). -/
def handle_missing_values_products (t : ProductsTable) : ProductsTable where
  hasEnglishCol := t.hasEnglishCol
  rows := t.rows.map fun r =>
    { product_id := fillUnknown r.product_id
      product_category_name := fillUnknown r.product_category_name
      product_category_name_english :=
        if t.hasEnglishCol then fillUnknown r.product_category_name_english
        else r.product_category_name_english }

/-- `handle_missing_values(df, 'sellers')`: generic string fill only. -/
def handle_missing_values_sellers (r : SellerRow) : SellerRow :=
  { r with seller_id := fillUnknown r.seller_id }

/-- `handle_missing_values(df, 'category_translation')`: generic string fill
only. -/
def handle_missing_values_category_translation (r : TranslationRow) : TranslationRow :=
  { r with
    product_category_name := fillUnknown r.product_category_name
    product_category_name_english := fillUnknown r.product_category_name_english }

/-- `handle_missing_values(df, 'geolocation')`: generic string fill only. -/
def handle_missing_values_geolocation (r : GeoRow) : GeoRow :=
  { r with
    geolocation_city := fillUnknown r.geolocation_city
    geolocation_state := fillUnknown r.geolocation_state }

/-! ## Date conversion (`convert_dates`)

`pd.to_datetime(col, errors='coerce', format='mixed')` is modelled by an
abstract lenient parser `parse : String → Option Int`; unparsable strings
(including the `'unknown'` fills) coerce to `none` (`NaT`). -/

/-- `convert_dates` on the five `orders` date columns. -/
def convert_order_row (parse : String → Option Int) (r : OrderRowS) : OrderRow where
  order_id := r.order_id
  customer_id := r.customer_id
  order_status := r.order_status
  order_purchase_timestamp := r.order_purchase_timestamp.bind parse
  order_approved_at := r.order_approved_at.bind parse
  order_delivered_carrier_date := r.order_delivered_carrier_date.bind parse
  order_delivered_customer_date := r.order_delivered_customer_date.bind parse
  order_estimated_delivery_date := r.order_estimated_delivery_date.bind parse

/-- `convert_dates` on `order_items.shipping_limit_date`. -/
def convert_item_row (parse : String → Option Int) (r : ItemRowS) : ItemRow where
  order_id := r.order_id
  order_item_id := r.order_item_id
  product_id := r.product_id
  seller_id := r.seller_id
  shipping_limit_date := r.shipping_limit_date.bind parse
  price := r.price
  freight_value := r.freight_value

/-- `convert_dates` on `order_reviews.review_creation_date`. -/
def convert_review_row (parse : String → Option Int) (r : ReviewRowS) : ReviewRow where
  review_id := r.review_id
  order_id := r.order_id
  review_score := r.review_score
  review_comment_title := r.review_comment_title
  review_comment_message := r.review_comment_message
  review_creation_date := r.review_creation_date.bind parse

/-! ## Components -/

/-- `enrich_products`: left-join `products` to `category_translation` on the
category name, then fill the english column from the original category name,
itself defaulted to `'unknown'`.  The result always carries the english
column. -/
def enrich_products (t : ProductsTable) (tr : List TranslationRow) : ProductsTable where
  hasEnglishCol := true
  rows :=
    (leftMergeRows (fun p => p.product_category_name)
        (fun c => c.product_category_name) t.rows tr).map fun pc =>
      { product_id := pc.1.product_id
        product_category_name := pc.1.product_category_name
        product_category_name_english :=
          some (((pc.2.bind fun c => c.product_category_name_english)).getD
            (pc.1.product_category_name.getD "unknown")) }

/-- `calculate_order_metrics`: group `order_items` by `order_id`; sum price
and freight, count non-null `product_id`, take the max `order_item_id`, and
derive the order total. -/
def calculate_order_metrics (items : List ItemRow) : List OrderMetricsRow :=
  (groupByKey (fun r => r.order_id) items).map fun g =>
    let total_price := (g.2.map fun r => r.price).sum
    let total_freight := (g.2.map fun r => r.freight_value).sum
    { order_id := g.1
      order_items_total_price := total_price
      order_items_total_freight := total_freight
      order_items_count := (g.2.filterMap fun r => r.product_id).length
      order_max_item_id := (g.2.map fun r => r.order_item_id).max?
      order_total_value := total_price + total_freight }

/-- The per-row computation of `calculate_delivery_metrics`:
`delivery_time_days = (delivered - purchase).dt.days` with negative or
`> 365` values suppressed to `NA`, and `delivery_delay_days =
(delivered - estimated).dt.days` kept as computed.  `Timedelta.days` floors,
hence `Int.fdiv`; a missing operand propagates (`NaT`). -/
def delivery_row_metrics (r : OrderRow) : OrderRow :=
  let dtd :=
    match r.order_delivered_customer_date, r.order_purchase_timestamp with
    | some d, some p =>
      let n := Int.fdiv (d - p) secondsPerDay
      if n < 0 then none else if n > 365 then none else some n
    | _, _ => none
  let ddd :=
    match r.order_delivered_customer_date, r.order_estimated_delivery_date with
    | some d, some e => some (Int.fdiv (d - e) secondsPerDay)
    | _, _ => none
  { r with delivery_time_days := dtd, delivery_delay_days := ddd }

/-- `calculate_delivery_metrics`: rows are transformed in place, never
dropped.  (The function first re-runs `convert_dates` on the three timestamp
columns, which is the identity on already-converted columns.) -/
def calculate_delivery_metrics (orders : List OrderRow) : List OrderRow :=
  orders.map delivery_row_metrics

/-- `identify_recurring_customers`: count orders per `customer_unique_id`
(via a left merge of `orders` with `customers` on `customer_id`), flag
recurrence, and merge back onto `customers`, defaulting unmatched customers
to `0` / `False`. -/
def identify_recurring_customers (orders : List OrderRow)
    (customers : List CustomerRow) : List CustomerRow :=
  let merged := leftMergeRows (fun o => o.customer_id)
    (fun c => c.customer_id) orders customers
  let counts :=
    (groupByKey (fun p => p.2.bind fun c => c.customer_unique_id) merged).map
      fun g => (g.1, (g.2.filterMap fun p => p.1.order_id).length)
  (leftMergeRows (fun c => c.customer_unique_id) (fun q => some q.1)
      customers counts).map fun cq =>
    { cq.1 with
      total_orders := some ((cq.2.map fun q => q.2).getD 0)
      is_recurring_customer := some ((cq.2.map fun q => decide (q.2 > 1)).getD false) }

/-- `validate_geolocation`: flag coordinates inside Brazil's bounding box
(`Series.between` is inclusive); rows are retained either way. -/
def validate_geolocation (rows : List GeoRow) : List GeoRow :=
  rows.map fun g =>
    { g with
      is_valid_coordinate :=
        some (decide (-33 ≤ g.geolocation_lat ∧ g.geolocation_lat ≤ 5) &&
          decide (-73 ≤ g.geolocation_lng ∧ g.geolocation_lng ≤ -32)) }

/-! ## Fact table builder (`create_fact_table`) -/

/-- Payment aggregates per order: summed value, first-seen-deduplicated
payment types joined with `', '`, max installments.  (Null payment types
cannot survive normalization, so `x.unique()` is over non-null values.) -/
def payment_aggregates (payments : List PaymentRow) : List (String × ℚ × String × Option Int) :=
  (groupByKey (fun p => p.order_id) payments).map fun g =>
    (g.1, (g.2.map fun p => p.payment_value).sum,
      String.intercalate ", " (dedupFirst (g.2.filterMap fun p => p.payment_type)),
      (g.2.map fun p => p.payment_installments).max?)

/-- Review aggregates per order: mean score and "any non-null comment". -/
def review_aggregates (reviews : List ReviewRow) : List (String × ℚ × Bool) :=
  (groupByKey (fun r => r.order_id) reviews).map fun g =>
    (g.1, (g.2.map fun r => r.review_score).sum / (g.2.length : ℚ),
      g.2.any fun r => r.review_comment_message.isSome)

/-- Intermediate row of `product_agg`: `order_items` left-merged with
`products[['product_id', 'product_category_name_english']]`, the english
category then filled with `'unknown'`. -/
structure ProductAggRow where
  order_id : Option String
  product_id : Option String
  product_category_name_english : String
deriving DecidableEq, Repr

/-- The `product_agg` merge of `create_fact_table` (step 7). -/
def product_agg (items : List ItemRow) (products : List ProductRow) :
    List ProductAggRow :=
  (leftMergeRows (fun i => i.product_id) (fun p => p.product_id)
      items products).map fun ip =>
    { order_id := ip.1.order_id
      product_id := ip.1.product_id
      product_category_name_english :=
        ((ip.2.bind fun p => p.product_category_name_english)).getD "unknown" }

/-- `product_main`: per order, the mode of `product_id` over `product_agg`
(first sorted mode, with the source's fallbacks). -/
def product_main (pa : List ProductAggRow) : List (String × Option String) :=
  (groupByKey (fun r => r.order_id) pa).map fun g =>
    (g.1, modeAgg (g.2.map fun r => r.product_id))

/-- `product_category`: per order, the mode of the english category over
`product_agg`, defaulting to `'unknown'`. -/
def product_category_main (pa : List ProductAggRow) : List (String × String) :=
  (groupByKey (fun r => r.order_id) pa).map fun g =>
    (g.1, modeCat (g.2.map fun r => r.product_category_name_english))

/-- `seller_main`: per order, the mode of `seller_id` over `order_items`. -/
def seller_main (items : List ItemRow) : List (String × Option String) :=
  (groupByKey (fun r => r.order_id) items).map fun g =>
    (g.1, modeAgg (g.2.map fun r => r.seller_id))

/-- `seller_count`: per order, `seller_id.nunique()` (distinct non-null). -/
def seller_count (items : List ItemRow) : List (String × Nat) :=
  (groupByKey (fun r => r.order_id) items).map fun g =>
    (g.1, (dedupFirst (g.2.filterMap fun r => r.seller_id)).length)

/-- `create_fact_table`.  All aggregate tables are keyed by distinct
`order_id`s, so merging them is a first-match lookup; the one merge whose
right side may repeat keys — `customers` — is kept as a real left merge.
Selecting the english category column from an un-enriched `products` table is
a `KeyError`, modelled as `Except.error`.  `sellers` is accepted but unused,
as in the source. -/
def create_fact_table (orders : List OrderRow) (items : List ItemRow)
    (payments : List PaymentRow) (reviews : List ReviewRow)
    (customers : List CustomerRow) (products : ProductsTable)
    (sellers : List SellerRow) : Except String (List FactRow) :=
  if products.hasEnglishCol = false then
    .error "KeyError: column product_category_name_english not in products"
  else
    let metrics := calculate_order_metrics items
    let ordersE := calculate_delivery_metrics orders
    let payAgg := payment_aggregates payments
    let revAgg := review_aggregates reviews
    let pa := product_agg items products.rows
    let pMain := product_main pa
    let pCat := product_category_main pa
    let sMain := seller_main items
    let sCount := seller_count items
    .ok <| (leftMergeRows (fun o => o.customer_id) (fun c => c.customer_id)
        ordersE customers).map fun oc =>
      let o := oc.1
      let key := fun s : String => o.order_id = some s
      let m := metrics.find? fun m => key m.order_id
      let pay := payAgg.find? fun p => key p.1
      let rev := revAgg.find? fun p => key p.1
      { order_id := o.order_id
        customer_id := o.customer_id
        order_status := o.order_status
        order_purchase_timestamp := o.order_purchase_timestamp
        order_delivered_customer_date := o.order_delivered_customer_date
        order_estimated_delivery_date := o.order_estimated_delivery_date
        delivery_time_days := o.delivery_time_days
        delivery_delay_days := o.delivery_delay_days
        order_items_total_price := m.map fun m => m.order_items_total_price
        order_items_total_freight := m.map fun m => m.order_items_total_freight
        order_items_count := m.map fun m => m.order_items_count
        order_max_item_id := m.bind fun m => m.order_max_item_id
        order_total_value := m.map fun m => m.order_total_value
        total_payment_value := pay.map fun p => p.2.1
        payment_types := pay.map fun p => p.2.2.1
        max_installments := pay.bind fun p => p.2.2.2
        avg_review_score := rev.map fun p => p.2.1
        has_review_comment := rev.map fun p => p.2.2
        customer_unique_id := oc.2.bind fun c => c.customer_unique_id
        customer_state := oc.2.bind fun c => c.customer_state
        customer_city := oc.2.bind fun c => c.customer_city
        main_product_id := (pMain.find? fun p => key p.1).bind fun p => p.2
        main_product_category := (pCat.find? fun p => key p.1).map fun p => p.2
        main_seller_id := (sMain.find? fun p => key p.1).bind fun p => p.2
        unique_sellers_count := (sCount.find? fun p => key p.1).map fun p => p.2 }

/-! ## Transform orchestrator (`transform_all`)

`transform_all` receives the extraction mapping (a Python dict) and mutates
it in place: every stage writes its output back into `datasets[name]`.  The
embedding threads that mutable dict explicitly: `RawDatasets` is the dict as
passed in (one optional slot per canonical dataset name), `TransformOutcome.final`
is the state of the *same* dict when the call ends, and
`TransformOutcome.result` is the returned `transformed` mapping — its two
extra entries here, since on success it also contains every `final` entry —
or the propagated exception. -/

/-- The caller's dataset mapping as handed to `transform_all`. -/
structure RawDatasets where
  orders : Option (List OrderRowS) := none
  order_items : Option (List ItemRowS) := none
  order_payments : Option (List PaymentRow) := none
  order_reviews : Option (List ReviewRowS) := none
  customers : Option (List CustomerRow) := none
  products : Option ProductsTable := none
  sellers : Option (List SellerRow) := none
  category_translation : Option (List TranslationRow) := none
  geolocation : Option (List GeoRow) := none

/-- The caller's dataset mapping after `transform_all` has run. -/
structure Datasets where
  orders : Option (List OrderRow) := none
  order_items : Option (List ItemRow) := none
  order_payments : Option (List PaymentRow) := none
  order_reviews : Option (List ReviewRow) := none
  customers : Option (List CustomerRow) := none
  products : Option ProductsTable := none
  sellers : Option (List SellerRow) := none
  category_translation : Option (List TranslationRow) := none
  geolocation : Option (List GeoRow) := none

/-- The entries the returned `transformed` dict has beyond the (transformed)
input entries. -/
structure Extras where
  order_metrics : Option (List OrderMetricsRow) := none
  fact_orders : Option (List FactRow) := none
deriving DecidableEq

/-- Result of a `transform_all` call: the final state of the caller's
mapping, and either the returned mapping's extra entries or the exception
that propagated out of the fact-table stage. -/
structure TransformOutcome where
  final : Datasets
  result : Except String Extras

/-- `transform_all`, stage by stage.  Column standardization (stage 1) is the
identity on these fixed schemas. -/
def transform_all (parse : String → Option Int) (ds : RawDatasets) :
    TransformOutcome :=
  -- stage 2: missing values
  let orders1 := ds.orders.map (List.map handle_missing_values_orders)
  let items1 := ds.order_items.map (List.map handle_missing_values_order_items)
  let payments1 := ds.order_payments.map (List.map handle_missing_values_order_payments)
  let reviews1 := ds.order_reviews.map (List.map handle_missing_values_order_reviews)
  let customers1 := ds.customers.map (List.map handle_missing_values_customers)
  let products1 := ds.products.map handle_missing_values_products
  let sellers1 := ds.sellers.map (List.map handle_missing_values_sellers)
  let translation1 := ds.category_translation.map (List.map handle_missing_values_category_translation)
  let geolocation1 := ds.geolocation.map (List.map handle_missing_values_geolocation)
  -- stage 3: date conversion (orders, order_items, order_reviews)
  let orders2 := orders1.map (List.map (convert_order_row parse))
  let items2 := items1.map (List.map (convert_item_row parse))
  let reviews2 := reviews1.map (List.map (convert_review_row parse))
  -- stage 4: product enrichment (needs products and category_translation)
  let products2 :=
    match products1, translation1 with
    | some pt, some tr => some (enrich_products pt tr)
    | pt, _ => pt
  -- stage 5: order metrics (needs order_items)
  let order_metrics := items2.map calculate_order_metrics
  -- stage 6: delivery metrics (needs orders)
  let orders3 := orders2.map calculate_delivery_metrics
  -- stage 7: recurring customers (needs orders and customers)
  let customers2 :=
    match orders3, customers1 with
    | some os, some cs => some (identify_recurring_customers os cs)
    | _, cs => cs
  -- stage 8: geolocation validation (needs geolocation)
  let geolocation2 := geolocation1.map validate_geolocation
  let final : Datasets :=
    { orders := orders3, order_items := items2, order_payments := payments1
      order_reviews := reviews2, customers := customers2, products := products2
      sellers := sellers1, category_translation := translation1
      geolocation := geolocation2 }
  -- stage 9: fact table (needs the seven required tables)
  { final := final
    result :=
      match orders3, items2, payments1, reviews2, customers2, products2, sellers1 with
      | some os, some its, some pys, some rvs, some cs, some pt, some sl =>
        match create_fact_table os its pys rvs cs pt sl with
        | .ok ft => .ok { order_metrics := order_metrics, fact_orders := some ft }
        | .error e => .error e
      | _, _, _, _, _, _, _ =>
        .ok { order_metrics := order_metrics, fact_orders := none } }

/-- The names present in the caller's mapping. -/
def inputNames (ds : RawDatasets) : List String :=
  (if ds.orders.isSome then ["orders"] else []) ++
  (if ds.order_items.isSome then ["order_items"] else []) ++
  (if ds.order_payments.isSome then ["order_payments"] else []) ++
  (if ds.order_reviews.isSome then ["order_reviews"] else []) ++
  (if ds.customers.isSome then ["customers"] else []) ++
  (if ds.products.isSome then ["products"] else []) ++
  (if ds.sellers.isSome then ["sellers"] else []) ++
  (if ds.category_translation.isSome then ["category_translation"] else []) ++
  (if ds.geolocation.isSome then ["geolocation"] else [])

/-- The names present in a final dataset mapping. -/
def datasetNames (d : Datasets) : List String :=
  (if d.orders.isSome then ["orders"] else []) ++
  (if d.order_items.isSome then ["order_items"] else []) ++
  (if d.order_payments.isSome then ["order_payments"] else []) ++
  (if d.order_reviews.isSome then ["order_reviews"] else []) ++
  (if d.customers.isSome then ["customers"] else []) ++
  (if d.products.isSome then ["products"] else []) ++
  (if d.sellers.isSome then ["sellers"] else []) ++
  (if d.category_translation.isSome then ["category_translation"] else []) ++
  (if d.geolocation.isSome then ["geolocation"] else [])

/-- The dataset names of the mapping `transform_all` returns on success:
`transformed` holds the extra derived tables plus (via
`transformed.update(datasets)`) every entry of the mutated input mapping. -/
def outputNames (ex : Extras) (final : Datasets) : List String :=
  (if ex.order_metrics.isSome then ["order_metrics"] else []) ++
  (if ex.fact_orders.isSome then ["fact_orders"] else []) ++
  datasetNames final

/-- The seven tables stage 9 requires before it builds the fact table. -/
def allSevenPresent (ds : RawDatasets) : Prop :=
  ds.orders.isSome ∧ ds.order_items.isSome ∧ ds.order_payments.isSome ∧
  ds.order_reviews.isSome ∧ ds.customers.isSome ∧ ds.products.isSome ∧
  ds.sellers.isSome

instance (ds : RawDatasets) : Decidable (allSevenPresent ds) := by
  unfold allSevenPresent; infer_instance

/-- Whether, at stage 9, the products table carries the english category
column: either it already arrived with it, or stage 4 enrichment ran
(products and category_translation both present). -/
def productsEnglishFinal (ds : RawDatasets) : Bool :=
  match ds.products with
  | some pt => pt.hasEnglishCol || ds.category_translation.isSome
  | none => false

/-! ## Specification-side definitions (used only to state claims) -/

/-- Number of distinct non-null `order_id` values among the orders linked,
via `customer_id`, to a customer row carrying `uid` — the recurrence count
the specification describes. -/
def linkedOrderCount (orders : List OrderRow) (customers : List CustomerRow)
    (uid : Option String) : Nat :=
  (dedupFirst ((orders.filter fun o => customers.any fun c =>
      decide (c.customer_id = o.customer_id ∧ c.customer_unique_id = uid)).filterMap
    fun o => o.order_id)).length

/-- `m` is a most-frequent value of `xs` and the least such value in Python
string order — the tie-break the mode aggregation actually implements. -/
def isLeastMode (xs : List String) (m : String) : Prop :=
  m ∈ xs ∧ (∀ v ∈ xs, xs.count v ≤ xs.count m) ∧
    (∀ v ∈ xs, xs.count v = xs.count m → strLe m v)

/-! ## Concrete example inputs used by witnesses and counterexamples -/

/-- A concrete delivered order used as witness input: purchased at epoch 0,
delivered 3 days 2 hours later. -/
def exDeliveredOrder : OrderRow :=
  { order_id := some "o1", customer_id := some "c1",
    order_status := some "delivered",
    order_purchase_timestamp := some 0,
    order_approved_at := none,
    order_delivered_carrier_date := none,
    order_delivered_customer_date := some 266400,
    order_estimated_delivery_date := some 432000 }
/-- An undelivered order as extracted: both delivery dates null. -/
def exRawUndeliveredOrder : OrderRowS :=
  { order_id := some "o1", customer_id := some "c1",
    order_status := some "shipped",
    order_purchase_timestamp := some "2017-01-05 10:00:00",
    order_approved_at := some "2017-01-05 11:00:00",
    order_delivered_carrier_date := none,
    order_delivered_customer_date := none,
    order_estimated_delivery_date := some "2017-02-01 00:00:00" }
/-- The two-item order of the spec's metric-correctness example. -/
def exItems : List ItemRow :=
  [{ order_id := some "1", order_item_id := 1, product_id := some "p1",
     seller_id := some "s1", shipping_limit_date := none,
     price := 10, freight_value := 5 },
   { order_id := some "1", order_item_id := 2, product_id := some "p2",
     seller_id := some "s1", shipping_limit_date := none,
     price := 20, freight_value := 5 }]
/-- The aggregate row the example order produces. -/
def exMetricsRow : OrderMetricsRow :=
  { order_id := "1", order_items_total_price := 30,
    order_items_total_freight := 10, order_items_count := 2,
    order_max_item_id := some 2, order_total_value := 40 }
/-- Products exercising all three fallback levels: a translated category, an
untranslated one, and a null one. -/
def exProducts : ProductsTable :=
  { hasEnglishCol := false
    rows := [{ product_id := some "p1", product_category_name := some "moveis" },
             { product_id := some "p2", product_category_name := some "eletronicos" },
             { product_id := some "p3", product_category_name := none }] }

def exTranslation : List TranslationRow :=
  [{ product_category_name := some "moveis",
     product_category_name_english := some "furniture" }]

/-- Orders for the recurrence example: two orders by customer id `"a"`, one
by `"b"`, none by `"d"`. -/
def exRecOrders : List OrderRow :=
  [{ order_id := some "o1", customer_id := some "a",
     order_status := some "delivered", order_purchase_timestamp := none,
     order_approved_at := none, order_delivered_carrier_date := none,
     order_delivered_customer_date := none,
     order_estimated_delivery_date := none },
   { order_id := some "o2", customer_id := some "a",
     order_status := some "delivered", order_purchase_timestamp := none,
     order_approved_at := none, order_delivered_carrier_date := none,
     order_delivered_customer_date := none,
     order_estimated_delivery_date := none },
   { order_id := some "o3", customer_id := some "b",
     order_status := some "shipped", order_purchase_timestamp := none,
     order_approved_at := none, order_delivered_carrier_date := none,
     order_delivered_customer_date := none,
     order_estimated_delivery_date := none }]

/-- Customers for the recurrence example: `"u1"` has two orders, `"u2"` one,
`"u3"` none. -/
def exRecCustomers : List CustomerRow :=
  [{ customer_id := some "a", customer_unique_id := some "u1",
     customer_city := some "sao paulo", customer_state := some "SP" },
   { customer_id := some "b", customer_unique_id := some "u2",
     customer_city := some "rio de janeiro", customer_state := some "RJ" },
   { customer_id := some "d", customer_unique_id := some "u3",
     customer_city := some "salvador", customer_state := some "BA" }]

/-- Items of one order whose two sellers tie at one item each, the
*first-encountered* seller being `"s2"`. -/
def exTieItems : List ItemRow :=
  [{ order_id := some "o1", order_item_id := 1, product_id := some "p2",
     seller_id := some "s2", shipping_limit_date := none,
     price := 10, freight_value := 1 },
   { order_id := some "o1", order_item_id := 2, product_id := some "p1",
     seller_id := some "s1", shipping_limit_date := none,
     price := 20, freight_value := 1 }]

/-- All seven fact-table inputs present, but no `category_translation`, so
the products table never gains the english category column. -/
def exMissingTranslation : RawDatasets :=
  { orders := some [], order_items := some [], order_payments := some [],
    order_reviews := some [], customers := some [],
    products := some { rows := [], hasEnglishCol := false },
    sellers := some [] }

/-! ## Claim C2 / C9: delivery metrics -/

/-- C2: after `calculate_delivery_metrics`, every row is retained (the
function is a per-row map), `delivery_time_days` is the whole-day floor of
`delivered_customer_date - purchase_timestamp`, and it is `NA` exactly when
either timestamp is missing, the floored difference is negative, or it
exceeds 365. -/
theorem delivery_time_days_correct (rows : List OrderRow) :
    calculate_delivery_metrics rows = rows.map delivery_row_metrics ∧
    ∀ r : OrderRow,
      ((delivery_row_metrics r).delivery_time_days = none ↔
        (r.order_purchase_timestamp = none ∨
         r.order_delivered_customer_date = none ∨
         ∃ p d, r.order_purchase_timestamp = some p ∧
           r.order_delivered_customer_date = some d ∧
           (Int.fdiv (d - p) secondsPerDay < 0 ∨
            365 < Int.fdiv (d - p) secondsPerDay))) ∧
      ∀ p d, r.order_purchase_timestamp = some p →
        r.order_delivered_customer_date = some d →
        0 ≤ Int.fdiv (d - p) secondsPerDay →
        Int.fdiv (d - p) secondsPerDay ≤ 365 →
        (delivery_row_metrics r).delivery_time_days =
          some (Int.fdiv (d - p) secondsPerDay) := by
  refine ⟨rfl, fun r => ⟨?_, ?_⟩⟩
  · cases hd : r.order_delivered_customer_date with
    | none => simp [delivery_row_metrics, hd]
    | some d =>
      cases hp : r.order_purchase_timestamp with
      | none => simp [delivery_row_metrics, hd, hp]
      | some p =>
        simp only [delivery_row_metrics, hd, hp]
        split_ifs with h1 h2 <;> simp <;> omega
  · intro p d hp hd h0 h365
    simp only [delivery_row_metrics, hd, hp]
    split_ifs with h1 h2 <;> first | rfl | omega

theorem delivery_time_days_correct_witness :
    (delivery_row_metrics exDeliveredOrder).delivery_time_days = some 3 := by
  have h := ((delivery_time_days_correct [exDeliveredOrder]).2 exDeliveredOrder).2
    0 266400 rfl rfl (by decide) (by decide)
  rw [h]; decide

/-- C9: `delivery_delay_days` is the whole-day floor of
`delivered_customer_date - estimated_delivery_date` whenever both dates are
present — unconditionally, so negative (early) values and arbitrarily large
values are kept; no outlier suppression is applied to this column. -/
theorem delivery_delay_days_correct (rows : List OrderRow) :
    calculate_delivery_metrics rows = rows.map delivery_row_metrics ∧
    ∀ (r : OrderRow) (d e : Int),
      r.order_delivered_customer_date = some d →
      r.order_estimated_delivery_date = some e →
      (delivery_row_metrics r).delivery_delay_days =
        some (Int.fdiv (d - e) secondsPerDay) := by
  refine ⟨rfl, fun r d e hd he => ?_⟩
  simp [delivery_row_metrics, hd, he]

theorem delivery_delay_days_correct_witness :
    (delivery_row_metrics exDeliveredOrder).delivery_delay_days = some (-2) := by
  have h := (delivery_delay_days_correct [exDeliveredOrder]).2 exDeliveredOrder
    266400 432000 rfl rfl
  rw [h]; decide

/-! ## Claim C8: the normalizer and the orders delivery dates

The spec (and the code's own comment, `transform.py` lines 104-106: delivery
dates "are kept as NaT") promise that `handle_missing_values` leaves the
`orders` delivery date columns null.  But when `handle_missing_values` runs,
those columns are still string-typed — extraction types them `'string'`, and
`transform_all` converts dates only *after* the missing-value stage — so the
generic "fill every null of every string column with `'unknown'`" loop
catches them.  The null delivery dates of an undelivered order are therefore
replaced with `'unknown'`, contradicting the dedicated `orders` branch right
above the loop.  (`convert_dates` later coerces `'unknown'` back to `NaT`,
which masks the bug at the end of the full pipeline but not at this stage.) -/

/-- C8 (code bug): on an undelivered order the normalizer replaces the null
`order_delivered_customer_date` (and carrier date) with the string
`'unknown'` instead of keeping it missing. -/
theorem handle_missing_values_orders_fills_delivery_dates :
    (handle_missing_values_orders exRawUndeliveredOrder).order_delivered_customer_date
        = some "unknown" ∧
    (handle_missing_values_orders exRawUndeliveredOrder).order_delivered_carrier_date
        = some "unknown" := ⟨rfl, rfl⟩


/-! ## Lemmas about `dedupFirst`, `groupByKey` and `leftMergeRows` -/

theorem mem_dedupFirst {α : Type} [DecidableEq α] (a : α) :
    ∀ l : List α, a ∈ dedupFirst l ↔ a ∈ l := by
  intro l
  induction l using dedupFirst.induct with
  | case1 => simp [dedupFirst]
  | case2 x xs ih =>
    rw [dedupFirst]
    by_cases hax : a = x
    · simp [hax]
    · simp only [List.mem_cons, ih, List.mem_filter]
      constructor
      · rintro (h | ⟨h, _⟩)
        · exact .inl h
        · exact .inr h
      · rintro (h | h)
        · exact .inl h
        · exact .inr ⟨h, by simpa using hax⟩

theorem nodup_dedupFirst {α : Type} [DecidableEq α] :
    ∀ l : List α, (dedupFirst l).Nodup := by
  intro l
  induction l using dedupFirst.induct with
  | case1 => simp [dedupFirst]
  | case2 x xs ih =>
    rw [dedupFirst]
    refine List.nodup_cons.mpr ⟨fun hx => ?_, ih⟩
    have := (mem_dedupFirst x _).mp hx
    simp at this

theorem dedupFirst_eq_self {α : Type} [DecidableEq α] {l : List α}
    (h : l.Nodup) : dedupFirst l = l := by
  induction l with
  | nil => rw [dedupFirst]
  | cons x xs ih =>
    rw [dedupFirst]
    have hx : x ∉ xs := (List.nodup_cons.mp h).1
    have hf : xs.filter (fun y => y ≠ x) = xs := by
      refine List.filter_eq_self.mpr fun a ha => ?_
      simp only [ne_eq, decide_eq_true_eq]
      intro hax
      exact hx (hax ▸ ha)
    rw [hf, ih (List.nodup_cons.mp h).2]

/-- The keys of `groupByKey` are the distinct non-null key values in
first-occurrence order. -/
theorem groupByKey_keys {α : Type} (key : α → Option String) (rows : List α) :
    (groupByKey key rows).map (fun g => g.1) =
      dedupFirst (rows.filterMap key) := by
  rw [groupByKey, List.map_map]
  exact List.map_id _

/-- Membership in `groupByKey`: every group is the filter of its key. -/
theorem mem_groupByKey {α : Type} {key : α → Option String} {rows : List α}
    {g : String × List α} (hg : g ∈ groupByKey key rows) :
    g.1 ∈ dedupFirst (rows.filterMap key) ∧
      g.2 = rows.filter fun r => key r = some g.1 := by
  simp only [groupByKey, List.mem_map] at hg
  obtain ⟨k, hk, rfl⟩ := hg
  exact ⟨hk, rfl⟩

/-- With pairwise distinct right keys, filtering for one key value yields at
most the row `find?` locates. -/
theorem filter_key_of_nodup {β : Type} (rk : β → Option String) (k : Option String) :
    ∀ rs : List β, (rs.map rk).Nodup →
      rs.filter (fun r => rk r = k) = (rs.find? fun r => rk r = k).toList := by
  intro rs h
  induction rs with
  | nil => rfl
  | cons r rs ih =>
    simp only [List.map_cons, List.nodup_cons] at h
    by_cases hr : rk r = k
    · have hnil : rs.filter (fun x => rk x = k) = [] := by
        rw [List.filter_eq_nil_iff]
        intro b hb
        simp only [decide_eq_true_eq]
        intro hbk
        exact h.1 (List.mem_map.mpr ⟨b, hb, by rw [hbk, hr]⟩)
      simp [List.filter_cons, List.find?_cons, hr, hnil]
    · simp only [List.filter_cons, List.find?_cons, hr]
      simpa using ih h.2

/-- When every right key is distinct, a left merge pairs each left row with
the first (hence only) matching right row. -/
theorem leftMergeRows_eq_map_find {α β : Type} (lk : α → Option String)
    (rk : β → Option String) (ls : List α) (rs : List β)
    (h : (rs.map rk).Nodup) :
    leftMergeRows lk rk ls rs =
      ls.map fun l => (l, rs.find? fun r => rk r = lk l) := by
  unfold leftMergeRows
  induction ls with
  | nil => rfl
  | cons l ls ih =>
    rw [List.flatMap_cons, ih, List.map_cons]
    have hfk := filter_key_of_nodup rk (lk l) rs h
    cases hf : rs.find? fun r => rk r = lk l with
    | none => rw [hf] at hfk; rw [hfk]; rfl
    | some m => rw [hf] at hfk; rw [hfk]; rfl

/-! ## Claim C3: order metric aggregation -/

/-- C3: `calculate_order_metrics` yields exactly one row per distinct
`order_id` of the input (in particular, no row for an absent order), and on
each row the five measures are the group's sum of price, sum of freight,
count of non-null `product_id`, max `order_item_id`, and the exact sum of
the two totals; the spec's example order evaluates to total `40` with
count `2`. -/
theorem calculate_order_metrics_correct (items : List ItemRow) :
    ((calculate_order_metrics items).map fun m => m.order_id) =
      dedupFirst (items.filterMap fun r => r.order_id) ∧
    (∀ m ∈ calculate_order_metrics items,
      m.order_items_total_price =
        ((items.filter fun r => r.order_id = some m.order_id).map
          fun r => r.price).sum ∧
      m.order_items_total_freight =
        ((items.filter fun r => r.order_id = some m.order_id).map
          fun r => r.freight_value).sum ∧
      m.order_items_count =
        ((items.filter fun r => r.order_id = some m.order_id).filterMap
          fun r => r.product_id).length ∧
      m.order_max_item_id =
        ((items.filter fun r => r.order_id = some m.order_id).map
          fun r => r.order_item_id).max? ∧
      m.order_total_value =
        m.order_items_total_price + m.order_items_total_freight) ∧
    ((calculate_order_metrics exItems).map
      fun m => (m.order_id, m.order_total_value, m.order_items_count)) =
      [("1", 40, 2)] := by
  refine ⟨?_, ?_, ?_⟩
  · rw [calculate_order_metrics, List.map_map, ← groupByKey_keys]
    rfl
  · intro m hm
    simp only [calculate_order_metrics, List.mem_map] at hm
    obtain ⟨g, hg, rfl⟩ := hm
    obtain ⟨-, hfil⟩ := mem_groupByKey hg
    exact ⟨by rw [hfil], by rw [hfil], by rw [hfil], by rw [hfil], rfl⟩
  · simp [calculate_order_metrics, groupByKey, dedupFirst, exItems]
    norm_num

theorem calculate_order_metrics_correct_witness :
    exMetricsRow ∈ calculate_order_metrics exItems ∧
    exMetricsRow.order_total_value =
      exMetricsRow.order_items_total_price +
        exMetricsRow.order_items_total_freight := by
  have hm : exMetricsRow ∈ calculate_order_metrics exItems := by
    have : calculate_order_metrics exItems = [exMetricsRow] := by
      simp [calculate_order_metrics, groupByKey, dedupFirst, exItems,
        exMetricsRow, List.max?]
      norm_num
    rw [this]; exact List.mem_singleton.mpr rfl
  exact ⟨hm, ((calculate_order_metrics_correct exItems).2.1 exMetricsRow hm).2.2.2.2⟩

/-! ## Claim C5: category enrichment -/

/-- C5: with the translation lookup keyed uniquely (its documented shape),
every enriched product row carries
`some (translation match, else own category name, else "unknown")` in
`product_category_name_english`; in particular the column is never null. -/
theorem enrich_products_correct (t : ProductsTable) (tr : List TranslationRow)
    (h : (tr.map fun c => c.product_category_name).Nodup) :
    (enrich_products t tr).rows = (t.rows.map fun p =>
      { product_id := p.product_id
        product_category_name := p.product_category_name
        product_category_name_english :=
          some (((tr.find? fun c =>
              c.product_category_name = p.product_category_name).bind
            fun c => c.product_category_name_english).getD
              (p.product_category_name.getD "unknown")) }) ∧
    ∀ q ∈ (enrich_products t tr).rows,
      q.product_category_name_english ≠ none := by
  suffices hrows : (enrich_products t tr).rows = (t.rows.map fun p =>
      ({ product_id := p.product_id
         product_category_name := p.product_category_name
         product_category_name_english :=
           some (((tr.find? fun c =>
               c.product_category_name = p.product_category_name).bind
             fun c => c.product_category_name_english).getD
               (p.product_category_name.getD "unknown")) } : ProductRow)) by
    refine ⟨hrows, fun q hq => ?_⟩
    rw [hrows] at hq
    obtain ⟨p, -, rfl⟩ := List.mem_map.mp hq
    simp
  simp only [enrich_products]
  rw [leftMergeRows_eq_map_find _ _ _ _ h, List.map_map]
  rfl

theorem enrich_products_correct_witness :
    ((enrich_products exProducts exTranslation).rows.map
      fun q => q.product_category_name_english) =
      [some "furniture", some "eletronicos", some "unknown"] := by
  rw [(enrich_products_correct exProducts exTranslation (by decide)).1]
  decide

/-! ## Claim C4: recurring customers -/

/-- `find?` over an association list built from distinct keys. -/
theorem find_map_key {γ : Type} (ks : List String) (f : String → γ) (u : String) :
    ((ks.map fun k => (k, f k)).find? fun q => some q.1 = some u) =
      if u ∈ ks then some (u, f u) else none := by
  induction ks with
  | nil => simp
  | cons k ks ih =>
    rw [List.map_cons]
    by_cases hk : k = u
    · subst hk
      rw [List.find?_cons_of_pos _ (by simp)]
      simp
    · rw [List.find?_cons_of_neg _ (by simp [hk]), ih]
      exact (if_congr (by simp [Ne.symm hk]) rfl rfl).symm

/-- The propositional content of "some customer links this order to `uid`",
reduced, under unique customer ids, to the single customer `find?` locates. -/
theorem customer_link_any_eq (customers : List CustomerRow)
    (hcid : (customers.map fun c => c.customer_id).Nodup) (o : OrderRow) (u : String) :
    (customers.any fun c => decide (c.customer_id = o.customer_id ∧
        c.customer_unique_id = some u)) =
      decide (((customers.find? fun c => c.customer_id = o.customer_id).bind
        fun c => c.customer_unique_id) = some u) := by
  rw [Bool.eq_iff_iff, List.any_eq_true]
  simp only [decide_eq_true_eq]
  cases hf : customers.find? fun c => c.customer_id = o.customer_id with
  | none =>
    have hno := List.find?_eq_none.mp hf
    simp only [Option.none_bind]
    constructor
    · rintro ⟨c, hc, h1, -⟩
      exact absurd (by simpa using h1) (by simpa using hno c hc)
    · intro h; cases h
  | some c0 =>
    have hc0 : c0.customer_id = o.customer_id := by
      have := List.find?_some hf; simpa using this
    have hc0m : c0 ∈ customers := List.mem_of_find?_eq_some hf
    simp only [Option.some_bind]
    constructor
    · rintro ⟨c, hc, h1, h2⟩
      have : c = c0 := List.inj_on_of_nodup_map hcid hc hc0m (by rw [h1, hc0])
      rw [← this]; exact h2
    · intro h; exact ⟨c0, hc0m, hc0, h⟩

/-- The row count the classifier computes for `uid = some u` equals the
distinct linked-order count of the specification. -/
theorem merged_count_eq_linked (orders : List OrderRow) (customers : List CustomerRow)
    (hcid : (customers.map fun c => c.customer_id).Nodup)
    (hoid : (orders.filterMap fun o => o.order_id).Nodup) (u : String) :
    ((((orders.map fun o =>
          (o, customers.find? fun c => c.customer_id = o.customer_id)).filter
        fun p => (p.2.bind fun c => c.customer_unique_id) = some u).filterMap
      fun p => p.1.order_id).length) =
    linkedOrderCount orders customers (some u) := by
  rw [List.filter_map, List.filterMap_map]
  rw [linkedOrderCount]
  have hsub : ((orders.filter fun o => customers.any fun c =>
      decide (c.customer_id = o.customer_id ∧ c.customer_unique_id = some u)).filterMap
        fun o => o.order_id).Nodup :=
    ((List.filter_sublist _).filterMap _).nodup hoid
  rw [dedupFirst_eq_self hsub]
  congr 1
  apply congrArg
  apply List.filter_congr
  intro o _
  rw [customer_link_any_eq customers hcid o u]
  rfl

/-- C4: under the documented key shape (unique `customer_id`s, unique
non-null `order_id`s, non-null `customer_unique_id`s), the recurrence
classifier returns exactly the customers table with, on every row, the
number of distinct orders linked to that row's `customer_unique_id` and the
`> 1` flag; customers matching no order get `0` / `false`, not a null. -/
theorem identify_recurring_customers_correct (orders : List OrderRow)
    (customers : List CustomerRow)
    (hcid : (customers.map fun c => c.customer_id).Nodup)
    (hoid : (orders.filterMap fun o => o.order_id).Nodup)
    (huid : ∀ c ∈ customers, c.customer_unique_id ≠ none) :
    identify_recurring_customers orders customers = customers.map fun c =>
      { c with
        total_orders := some (linkedOrderCount orders customers c.customer_unique_id)
        is_recurring_customer :=
          some (decide (linkedOrderCount orders customers c.customer_unique_id > 1)) } := by
  have hmerged : leftMergeRows (fun o => o.customer_id)
      (fun c => c.customer_id) orders customers
      = orders.map fun o =>
          (o, customers.find? fun c => c.customer_id = o.customer_id) :=
    leftMergeRows_eq_map_find _ _ _ _ hcid
  simp only [identify_recurring_customers]
  rw [hmerged]
  have hcounts : ((groupByKey
        (fun p : OrderRow × Option CustomerRow => p.2.bind fun c => c.customer_unique_id)
        (orders.map fun o =>
          (o, customers.find? fun c => c.customer_id = o.customer_id))).map
      fun g => (g.1, (g.2.filterMap fun p => p.1.order_id).length)) =
      ((dedupFirst ((orders.map fun o =>
          (o, customers.find? fun c => c.customer_id = o.customer_id)).filterMap
            fun p => p.2.bind fun c => c.customer_unique_id)).map
        fun k => (k, (((orders.map fun o =>
            (o, customers.find? fun c => c.customer_id = o.customer_id)).filter
          fun p => (p.2.bind fun c => c.customer_unique_id) = some k).filterMap
            fun p => p.1.order_id).length)) := by
    rw [groupByKey, List.map_map]
    rfl
  rw [hcounts]
  have hknodup : (((dedupFirst ((orders.map fun o =>
      (o, customers.find? fun c => c.customer_id = o.customer_id)).filterMap
        fun p => p.2.bind fun c => c.customer_unique_id)).map
      fun k => (k, (((orders.map fun o =>
          (o, customers.find? fun c => c.customer_id = o.customer_id)).filter
        fun p => (p.2.bind fun c => c.customer_unique_id) = some k).filterMap
          fun p => p.1.order_id).length)).map fun q => some q.1).Nodup := by
    rw [List.map_map]
    have : ((fun q : String × Nat => some q.1) ∘ fun k => (k,
        (((orders.map fun o =>
          (o, customers.find? fun c => c.customer_id = o.customer_id)).filter
        fun p => (p.2.bind fun c => c.customer_unique_id) = some k).filterMap
          fun p => p.1.order_id).length)) = fun k => (some k : Option String) := rfl
    rw [this]
    exact (nodup_dedupFirst _).map (Option.some_injective _)
  rw [leftMergeRows_eq_map_find _ _ _ _ hknodup, List.map_map]
  refine List.map_congr_left fun c hc => ?_
  obtain ⟨u, hu⟩ := Option.ne_none_iff_exists'.mp (huid c hc)
  show ({ c with
      total_orders := _
      is_recurring_customer := _ } : CustomerRow) = _
  beta_reduce
  rw [hu]
  rw [find_map_key]
  by_cases hmem : u ∈ dedupFirst ((orders.map fun o =>
      (o, customers.find? fun c => c.customer_id = o.customer_id)).filterMap
        fun p => p.2.bind fun c => c.customer_unique_id)
  · rw [if_pos hmem]
    simp only [Option.map_some, Option.getD_some]
    rw [merged_count_eq_linked orders customers hcid hoid u]
    rfl
  · rw [if_neg hmem]
    have hfe : ((orders.map fun o =>
        (o, customers.find? fun c => c.customer_id = o.customer_id)).filter
          fun p => (p.2.bind fun c => c.customer_unique_id) = some u) = [] := by
      rw [List.filter_eq_nil_iff]
      intro p hp hpf
      exact hmem ((mem_dedupFirst u _).mpr
        (List.mem_filterMap.mpr ⟨p, hp, by simpa using hpf⟩))
    have hzero : linkedOrderCount orders customers (some u) = 0 := by
      rw [← merged_count_eq_linked orders customers hcid hoid u, hfe]
      rfl
    rw [hzero]
    simp

theorem identify_recurring_customers_correct_witness :
    (identify_recurring_customers exRecOrders exRecCustomers).map
      (fun c => (c.customer_unique_id, c.total_orders, c.is_recurring_customer)) =
      [(some "u1", some 2, some true), (some "u2", some 1, some false),
       (some "u3", some 0, some false)] := by
  rw [identify_recurring_customers_correct exRecOrders exRecCustomers
    (by decide) (by decide) (by decide)]
  simp [linkedOrderCount, dedupFirst, exRecOrders, exRecCustomers]

/-! ## Claim C1: main product / seller attribution -/

theorem le_foldr_max {l : List Nat} {x : Nat} (hx : x ∈ l) :
    x ≤ l.foldr max 0 := by
  induction l with
  | nil => cases hx
  | cons a l ih =>
    rcases List.mem_cons.mp hx with rfl | h
    · exact le_max_left _ _
    · exact le_trans (ih h) (le_max_right _ _)

theorem foldr_max_mem : ∀ {l : List Nat}, l ≠ [] → l.foldr max 0 ∈ l := by
  intro l
  induction l with
  | nil => intro h; exact absurd rfl h
  | cons a l ih =>
    intro _
    by_cases hl : l = []
    · subst hl; simp
    · rcases le_total a (l.foldr max 0) with h | h
      · rw [List.foldr_cons, max_eq_right h]
        exact List.mem_cons_of_mem _ (ih hl)
      · rw [List.foldr_cons, max_eq_left h]
        exact List.mem_cons_self _ _

/-- The head of `Series.mode()` on a nonempty series is a most-frequent
value, least in Python string order among the tied maximizers. -/
theorem seriesMode_head_isLeastMode (xs : List String) (hne : xs ≠ []) :
    ∃ m, (seriesMode xs).head? = some m ∧ isLeastMode xs m := by
  have hu : dedupFirst xs ≠ [] := by
    cases xs with
    | nil => exact absurd rfl hne
    | cons x xs => rw [dedupFirst]; exact List.cons_ne_nil _ _
  have hmapne : ((dedupFirst xs).map fun v => xs.count v) ≠ [] := by
    simpa using hu
  obtain ⟨v, hvu, hvc⟩ := List.mem_map.mp (foldr_max_mem hmapne)
  have hvf : v ∈ (dedupFirst xs).filter
      (fun w => xs.count w = ((dedupFirst xs).map fun v => xs.count v).foldr max 0) :=
    List.mem_filter.mpr ⟨hvu, by simp [hvc]⟩
  have hperm := List.perm_insertionSort strLe ((dedupFirst xs).filter
      (fun w => xs.count w = ((dedupFirst xs).map fun v => xs.count v).foldr max 0))
  have hsne : List.insertionSort strLe ((dedupFirst xs).filter
      (fun w => xs.count w = ((dedupFirst xs).map fun v => xs.count v).foldr max 0)) ≠ [] := by
    intro h
    rw [h] at hperm
    exact List.ne_nil_of_mem hvf hperm.symm.eq_nil
  obtain ⟨m, t, hmt⟩ := List.exists_cons_of_ne_nil hsne
  have hmmem : m ∈ (dedupFirst xs).filter
      (fun w => xs.count w = ((dedupFirst xs).map fun v => xs.count v).foldr max 0) :=
    hperm.mem_iff.mp (hmt ▸ List.mem_cons_self m t)
  have hmcount : xs.count m = ((dedupFirst xs).map fun v => xs.count v).foldr max 0 := by
    have := (List.mem_filter.mp hmmem).2
    simpa using this
  have hmxs : m ∈ xs := (mem_dedupFirst m xs).mp (List.mem_filter.mp hmmem).1
  refine ⟨m, ?_, hmxs, ?_, ?_⟩
  · show (List.insertionSort strLe _).head? = some m
    rw [hmt]; rfl
  · intro w hw
    rw [hmcount]
    exact le_foldr_max (List.mem_map.mpr ⟨w, (mem_dedupFirst w xs).mpr hw, rfl⟩)
  · intro w hw hwc
    have hwf : w ∈ (dedupFirst xs).filter
        (fun z => xs.count z = ((dedupFirst xs).map fun v => xs.count v).foldr max 0) :=
      List.mem_filter.mpr ⟨(mem_dedupFirst w xs).mpr hw, by simp [hwc, hmcount]⟩
    have hwsorted : w ∈ List.insertionSort strLe ((dedupFirst xs).filter
        (fun z => xs.count z = ((dedupFirst xs).map fun v => xs.count v).foldr max 0)) :=
      hperm.mem_iff.mpr hwf
    rw [hmt] at hwsorted
    rcases List.mem_cons.mp hwsorted with rfl | hwt
    · exact le_refl (α := List Char) _
    · have hsorted := List.sorted_insertionSort strLe ((dedupFirst xs).filter
        (fun z => xs.count z = ((dedupFirst xs).map fun v => xs.count v).foldr max 0))
      rw [hmt] at hsorted
      exact List.rel_of_sorted_cons hsorted w hwt

/-- The mode aggregation lambda, on a group with at least one non-null
value, returns the least most-frequent value. -/
theorem modeAgg_isLeastMode (xs : List (Option String))
    (hne : xs.filterMap id ≠ []) :
    ∃ m, modeAgg xs = some m ∧ isLeastMode (xs.filterMap id) m := by
  obtain ⟨m, hm, hl⟩ := seriesMode_head_isLeastMode (xs.filterMap id) hne
  refine ⟨m, ?_, hl⟩
  rw [modeAgg, hm]

/-- `findValue` over an association list built from distinct keys. -/
theorem findValue_map_key {γ : Type} (ks : List String) (f : String → γ) (u : String) :
    findValue (ks.map fun k => (k, f k)) u = if u ∈ ks then some (f u) else none := by
  induction ks with
  | nil => simp [findValue]
  | cons k ks ih =>
    rw [List.map_cons]
    by_cases hk : k = u
    · subst hk
      rw [findValue, List.find?_cons_of_pos _ (by simp)]
      simp
    · rw [findValue, List.find?_cons_of_neg _ (by simp [hk]), ← findValue, ih]
      exact (if_congr (by simp [Ne.symm hk]) rfl rfl).symm

/-- Mode aggregation over any keyed grouping: for each present key whose
group has a non-null value, the aggregate is the least most-frequent value
of the group. -/
theorem groupMode_spec {α : Type} (key : α → Option String)
    (val : α → Option String) (rows : List α) (o : String)
    (ho : o ∈ rows.filterMap key)
    (hne : (rows.filter fun r => key r = some o).filterMap val ≠ []) :
    ∃ m, findValue ((groupByKey key rows).map fun g =>
        (g.1, modeAgg (g.2.map val))) o = some (some m) ∧
      isLeastMode ((rows.filter fun r => key r = some o).filterMap val) m := by
  have hshape : ((groupByKey key rows).map fun g => (g.1, modeAgg (g.2.map val))) =
      (dedupFirst (rows.filterMap key)).map fun k =>
        (k, modeAgg ((rows.filter fun r => key r = some k).map val)) := by
    rw [groupByKey, List.map_map]
    rfl
  rw [hshape, findValue_map_key, if_pos ((mem_dedupFirst _ _).mpr ho)]
  have hxs : ((rows.filter fun r => key r = some o).map val).filterMap id =
      (rows.filter fun r => key r = some o).filterMap val := by
    rw [List.filterMap_map]
    rfl
  obtain ⟨m, hm, hl⟩ := modeAgg_isLeastMode
    ((rows.filter fun r => key r = some o).map val) (by rw [hxs]; exact hne)
  rw [hxs] at hl
  exact ⟨m, by rw [hm], hl⟩

/-- Under unique product ids, the items-to-products merge keeps one row per
item, preserving `order_id` and `product_id` columns. -/
theorem product_agg_eq_map (items : List ItemRow) (products : List ProductRow)
    (hp : (products.map fun p => p.product_id).Nodup) :
    product_agg items products = items.map fun i =>
      { order_id := i.order_id
        product_id := i.product_id
        product_category_name_english :=
          (((products.find? fun p => p.product_id = i.product_id).bind
            fun p => p.product_category_name_english)).getD "unknown" } := by
  rw [product_agg, leftMergeRows_eq_map_find _ _ _ _ hp, List.map_map]
  rfl

theorem product_agg_order_ids (items : List ItemRow) (products : List ProductRow)
    (hp : (products.map fun p => p.product_id).Nodup) :
    ((product_agg items products).filterMap fun r => r.order_id) =
      items.filterMap fun r => r.order_id := by
  rw [product_agg_eq_map items products hp, List.filterMap_map]
  rfl

theorem product_agg_group_products (items : List ItemRow) (products : List ProductRow)
    (hp : (products.map fun p => p.product_id).Nodup) (o : String) :
    (((product_agg items products).filter fun r => r.order_id = some o).filterMap
        fun r => r.product_id) =
      ((items.filter fun r => r.order_id = some o).filterMap fun r => r.product_id) := by
  rw [product_agg_eq_map items products hp, List.filter_map, List.filterMap_map]
  rfl

/-- C1 (amended): for every order with at least one item (with non-null
seller resp. product ids, as normalization guarantees), `seller_main` and —
under the documented unique product keys — `product_main` resolve the most
frequent seller/product of the order's items, with ties broken by the
*least* value in Python string sort order among the tied candidates (pandas
`mode()` returns the tied values sorted; the builder takes `.iloc[0]`).  The
spec's `s1`/`s2` example still resolves to `"s1"`, which is both first
encountered and sort-least. -/
theorem main_attribution_correct (items : List ItemRow) (products : List ProductRow)
    (hp : (products.map fun p => p.product_id).Nodup) (o : String)
    (ho : o ∈ items.filterMap fun r => r.order_id)
    (hsell : (items.filter fun r => r.order_id = some o).filterMap
      (fun r => r.seller_id) ≠ [])
    (hprod : (items.filter fun r => r.order_id = some o).filterMap
      (fun r => r.product_id) ≠ []) :
    (∃ ms, findValue (seller_main items) o = some (some ms) ∧
      isLeastMode ((items.filter fun r => r.order_id = some o).filterMap
        fun r => r.seller_id) ms) ∧
    (∃ mp, findValue (product_main (product_agg items products)) o = some (some mp) ∧
      isLeastMode ((items.filter fun r => r.order_id = some o).filterMap
        fun r => r.product_id) mp) := by
  constructor
  · exact groupMode_spec (fun r => r.order_id) (fun r => r.seller_id) items o ho hsell
  · obtain ⟨mp, hf, hl⟩ := groupMode_spec (fun r => r.order_id)
      (fun r => r.product_id) (product_agg items products) o
      (by rw [product_agg_order_ids items products hp]; exact ho)
      (by rw [product_agg_group_products items products hp o]; exact hprod)
    rw [product_agg_group_products items products hp o] at hl
    exact ⟨mp, hf, hl⟩

/-- C1 counterexample to the claimed *first-encountered* tie-break: an order
with two items whose sellers tie, first-encountered seller `"s2"`, resolves
`main_seller_id = "s1"` (the sort-least tied seller), not `"s2"`. -/
theorem main_seller_tiebreak_counterexample :
    (exTieItems.map fun r => r.seller_id) = [some "s2", some "s1"] ∧
    findValue (seller_main exTieItems) "o1" = some (some "s1") ∧
    some "s1" ≠ some "s2" := by
  refine ⟨rfl, ?_, by decide⟩
  simp only [seller_main, groupByKey, findValue, modeAgg, seriesMode]
  simp [dedupFirst, exTieItems]
  decide

theorem main_attribution_correct_witness :
    findValue (seller_main exTieItems) "o1" = some (some "s1") ∧
    findValue (product_main (product_agg exTieItems exProducts.rows)) "o1" =
      some (some "p1") := by
  obtain ⟨⟨ms, hms, hmem, -, hleast⟩, ⟨mp, hmp, hpmem, -, hpleast⟩⟩ :=
    main_attribution_correct exTieItems exProducts.rows (by decide) "o1"
      (by decide) (by decide) (by decide)
  have hms1 : ms = "s1" := by
    have h1 : ms ∈ [some "s2", some "s1"].filterMap id := hmem
    simp at h1
    rcases h1 with h | h
    · subst h
      exact absurd (hleast "s1" (by decide) (by decide)) (by decide)
    · exact h
  have hmp1 : mp = "p1" := by
    have h1 : mp ∈ [some "p2", some "p1"].filterMap id := hpmem
    simp at h1
    rcases h1 with h | h
    · subst h
      exact absurd (hpleast "p1" (by decide) (by decide)) (by decide)
    · exact h
  rw [hms1] at hms
  rw [hmp1] at hmp
  exact ⟨hms, hmp⟩

/-! ## Claims C6 / C7 / C10: the orchestrator -/

/-- Rows produced by the recurrence classifier always carry both recurrence
columns. -/
theorem identify_recurring_isSome (orders : List OrderRow)
    (customers : List CustomerRow) :
    ∀ c ∈ identify_recurring_customers orders customers,
      c.total_orders.isSome ∧ c.is_recurring_customer.isSome := by
  intro c hc
  simp only [identify_recurring_customers, List.mem_map] at hc
  obtain ⟨cq, -, rfl⟩ := hc
  exact ⟨rfl, rfl⟩

set_option maxHeartbeats 2000000 in
/-- Presence/absence behaviour of `transform_all`: every input entry stays
present (transformed) in the final mapping; on success the returned mapping
adds `order_metrics` iff `order_items` was present and `fact_orders` iff the
seven required tables were present and the products table carries the
english category column; it raises iff the seven are present but that
column is missing. -/
theorem transform_all_characterization (parse : String → Option Int)
    (ds : RawDatasets) :
    ((transform_all parse ds).final.orders.isSome = ds.orders.isSome ∧
     (transform_all parse ds).final.order_items.isSome = ds.order_items.isSome ∧
     (transform_all parse ds).final.order_payments.isSome = ds.order_payments.isSome ∧
     (transform_all parse ds).final.order_reviews.isSome = ds.order_reviews.isSome ∧
     (transform_all parse ds).final.customers.isSome = ds.customers.isSome ∧
     (transform_all parse ds).final.products.isSome = ds.products.isSome ∧
     (transform_all parse ds).final.sellers.isSome = ds.sellers.isSome ∧
     (transform_all parse ds).final.category_translation.isSome =
       ds.category_translation.isSome ∧
     (transform_all parse ds).final.geolocation.isSome = ds.geolocation.isSome) ∧
    (∀ ex, (transform_all parse ds).result = Except.ok ex →
      ex.order_metrics.isSome = ds.order_items.isSome ∧
      (ex.fact_orders.isSome ↔
        (allSevenPresent ds ∧ productsEnglishFinal ds = true)) ∧
      outputNames ex (transform_all parse ds).final =
        (if ds.order_items.isSome then ["order_metrics"] else []) ++
        (if allSevenPresent ds ∧ productsEnglishFinal ds = true
          then ["fact_orders"] else []) ++
        inputNames ds) ∧
    ((∃ e, (transform_all parse ds).result = Except.error e) ↔
      (allSevenPresent ds ∧ productsEnglishFinal ds = false)) := by
  obtain ⟨o9, i9, p9, r9, c9, pr9, s9, t9, g9⟩ := ds
  rcases o9 with _ | os <;> rcases i9 with _ | its <;> rcases p9 with _ | pys <;>
    rcases r9 with _ | rvs <;> rcases c9 with _ | cs <;>
    rcases pr9 with _ | ⟨prows, pflag⟩ <;> rcases s9 with _ | sl <;>
    rcases t9 with _ | tr <;> (try cases pflag) <;>
    simp [transform_all, allSevenPresent, productsEnglishFinal, outputNames,
      datasetNames, inputNames, create_fact_table, enrich_products,
      handle_missing_values_products]

/-- C10: `transform_all` mutates the caller's mapping in place — after the
call, every entry of the mapping passed in holds its transformed table
(normalized, date-converted, and where applicable enriched), not the raw
input table; each table value is rebuilt by pure per-stage functions (the
source copies each dataframe), never edited within. -/
theorem transform_all_mutates_mapping (parse : String → Option Int)
    (ds : RawDatasets) :
    (transform_all parse ds).final.orders =
      ds.orders.map (fun t => calculate_delivery_metrics
        ((t.map handle_missing_values_orders).map (convert_order_row parse))) ∧
    (transform_all parse ds).final.order_items =
      ds.order_items.map (fun t =>
        (t.map handle_missing_values_order_items).map (convert_item_row parse)) ∧
    (transform_all parse ds).final.order_payments =
      ds.order_payments.map (List.map handle_missing_values_order_payments) ∧
    (transform_all parse ds).final.order_reviews =
      ds.order_reviews.map (fun t =>
        (t.map handle_missing_values_order_reviews).map (convert_review_row parse)) ∧
    (transform_all parse ds).final.customers =
      (match ds.orders, ds.customers with
       | some os, some cs => some (identify_recurring_customers
           (calculate_delivery_metrics
             ((os.map handle_missing_values_orders).map (convert_order_row parse)))
           (cs.map handle_missing_values_customers))
       | _, cs => cs.map (List.map handle_missing_values_customers)) ∧
    (transform_all parse ds).final.products =
      (match ds.products, ds.category_translation with
       | some pt, some tr => some (enrich_products (handle_missing_values_products pt)
           (tr.map handle_missing_values_category_translation))
       | pt, _ => pt.map handle_missing_values_products) ∧
    (transform_all parse ds).final.sellers =
      ds.sellers.map (List.map handle_missing_values_sellers) ∧
    (transform_all parse ds).final.category_translation =
      ds.category_translation.map (List.map handle_missing_values_category_translation) ∧
    (transform_all parse ds).final.geolocation =
      ds.geolocation.map (fun t => validate_geolocation
        (t.map handle_missing_values_geolocation)) := by
  obtain ⟨o9, i9, p9, r9, c9, pr9, s9, t9, g9⟩ := ds
  refine ⟨?_, ?_, rfl, ?_, ?_, ?_, rfl, rfl, ?_⟩
  · cases o9 <;> rfl
  · cases i9 <;> rfl
  · cases r9 <;> rfl
  · cases o9 <;> cases c9 <;> rfl
  · cases pr9 <;> cases t9 <;> rfl
  · cases g9 <;> rfl

/-- C7 (amended): whenever `transform_all` returns, the names of the
returned mapping are exactly the input names, plus `order_metrics` iff
`order_items` was present, plus `fact_orders` iff the seven required tables
were present and the products table carries the english category column. -/
theorem transform_all_output_names (parse : String → Option Int)
    (ds : RawDatasets) (ex : Extras)
    (hok : (transform_all parse ds).result = Except.ok ex) :
    outputNames ex (transform_all parse ds).final =
      (if ds.order_items.isSome then ["order_metrics"] else []) ++
      (if allSevenPresent ds ∧ productsEnglishFinal ds = true
        then ["fact_orders"] else []) ++
      inputNames ds :=
  ((transform_all_characterization parse ds).2.1 ex hok).2.2

/-- C7 counterexample: on an input holding only `orders`, the call succeeds
but `order_metrics` is *not* among the output names (the claim adds it
unconditionally). -/
theorem transform_all_order_metrics_missing :
    (transform_all (fun _ => none) { orders := some [] }).result =
      Except.ok { order_metrics := none, fact_orders := none } ∧
    "order_metrics" ∉ outputNames { order_metrics := none, fact_orders := none }
      (transform_all (fun _ => none) { orders := some [] }).final := by
  exact ⟨rfl, by decide⟩

theorem transform_all_output_names_witness :
    outputNames { order_metrics := some [], fact_orders := none }
      (transform_all (fun _ => none)
        { orders := some [], order_items := some [] }).final =
      ["order_metrics", "orders", "order_items"] := by
  have h := transform_all_output_names (fun _ => none)
    { orders := some [], order_items := some [] }
    { order_metrics := some [], fact_orders := none }
    (by simp [transform_all, calculate_order_metrics, groupByKey, dedupFirst])
  rw [h]
  decide

/-- C6 (amended): a mapping holding only `orders` and `customers` transforms
without raising, still yields recurrence-enriched customers, and omits
`fact_orders`; in general, when `transform_all` returns, `fact_orders` is
present iff the seven required tables are present *and* the products table
carries the english category column, and with all seven present but that
column missing (no `category_translation` supplied) the fact builder's
column selection fails and `transform_all` raises instead of returning. -/
theorem transform_all_graceful_degradation :
    (∀ (parse : String → Option Int) (ds : RawDatasets) (os : List OrderRowS)
      (cs : List CustomerRow),
      ds.orders = some os → ds.customers = some cs →
      ds.order_items = none → ds.order_payments = none →
      ds.order_reviews = none → ds.products = none → ds.sellers = none →
      ds.category_translation = none → ds.geolocation = none →
      (∃ ex, (transform_all parse ds).result = Except.ok ex ∧
        ex.fact_orders = none) ∧
      (∃ cs2, (transform_all parse ds).final.customers = some cs2 ∧
        ∀ c ∈ cs2, c.total_orders.isSome ∧ c.is_recurring_customer.isSome)) ∧
    (∀ (parse : String → Option Int) (ds : RawDatasets) (ex : Extras),
      (transform_all parse ds).result = Except.ok ex →
      (ex.fact_orders.isSome ↔
        (allSevenPresent ds ∧ productsEnglishFinal ds = true))) ∧
    (∀ (parse : String → Option Int) (ds : RawDatasets),
      (∃ e, (transform_all parse ds).result = Except.error e) ↔
      (allSevenPresent ds ∧ productsEnglishFinal ds = false)) := by
  refine ⟨?_,
    fun parse ds ex hok =>
      ((transform_all_characterization parse ds).2.1 ex hok).2.1,
    fun parse ds => (transform_all_characterization parse ds).2.2⟩
  intro parse ds os cs ho hc hi hp hr hpr hs ht hg
  constructor
  · refine ⟨{ order_metrics := none, fact_orders := none }, ?_, rfl⟩
    simp [transform_all, ho, hc, hi, hp, hr, hpr, hs, ht, hg]
  · refine ⟨identify_recurring_customers
      (calculate_delivery_metrics
        ((os.map handle_missing_values_orders).map (convert_order_row parse)))
      (cs.map handle_missing_values_customers), ?_,
      identify_recurring_isSome _ _⟩
    simp [transform_all, ho, hc, hi, hp, hr, hpr, hs, ht, hg]

/-- C6 counterexample: with all seven required tables present but no
`category_translation` (products never gain the english column),
`transform_all` raises instead of returning a mapping — so `fact_orders` is
not "present in the result" although all seven inputs are. -/
theorem transform_all_seven_without_translation_raises :
    (transform_all (fun _ => none) exMissingTranslation).result =
      Except.error "KeyError: column product_category_name_english not in products" :=
  rfl

theorem transform_all_graceful_degradation_witness :
    (∃ ex, (transform_all (fun _ => none)
        ({ orders := some [], customers := some exRecCustomers } : RawDatasets)).result
          = Except.ok ex ∧ ex.fact_orders = none) ∧
    (∃ cs2, (transform_all (fun _ => none)
        ({ orders := some [], customers := some exRecCustomers } : RawDatasets)).final.customers
          = some cs2 ∧
      ∀ c ∈ cs2, c.total_orders.isSome ∧ c.is_recurring_customer.isSome) :=
  transform_all_graceful_degradation.1 (fun _ => none)
    { orders := some [], customers := some exRecCustomers } [] exRecCustomers
    rfl rfl rfl rfl rfl rfl rfl rfl rfl
